import Mathlib

/-!
Verification of the cotton-eye-pomodoro session engine.

This file shallowly embeds the state machine of `cotton-eye-pomodoro.py`:
the settings record and its validation (`SettingsDialog.get_settings`),
the persisted-settings merge (`load_settings`), the garden progression
(`update_garden_after_session`), the user command `toggle_start` with its
helpers (`start_pomodoro`, `stop_work`, `stop_all`, `start_break`), and the
per-second tick handler (`on_tick`).

Modelling conventions:
- Python ints are `Int`; wall-clock time is an `Int` number of seconds and
  ticks are idealized to land exactly one second apart.
- The looping distraction audio is modelled as the intent flags the code
  keeps (`annoying_song_playing`, `idle_annoying_song_playing`); whether an
  mp3 file is actually present is the external audio sink concern.
- Tones and desktop messages are emitted as an explicit `Effect` list.
- The two `random.choice` calls and `random.randrange(5)` take injected
  numbers `rs rf : Nat`, reduced modulo the candidate-list length exactly
  where the source draws from that list.
- `int(text)` parsing of the two duration text fields is represented by an
  `Option Int` (`none` when `int` would raise `ValueError`).
- JSON values read by `json.load` are the inductive `JValue`; a missing or
  unparseable file is `none`.
-/

namespace Pomodoro

/-- A settings record: the three keys the program uses. -/
structure Settings where
  right_apps : List String
  work_minutes : Int
  break_minutes : Int
  deriving DecidableEq, Repr

/-- `DEFAULT_SETTINGS` from the source. -/
def DEFAULT_SETTINGS : Settings :=
  { right_apps := ["blender", "houdini"], work_minutes := 25, break_minutes := 5 }

/-- A JSON value, as produced by `json.load`. -/
inductive JValue where
  | jnull
  | jbool (b : Bool)
  | jnum (n : Int)
  | jstr (s : String)
  | jarr (elems : List JValue)
  | jobj (fields : List (String × JValue))

/-- `DEFAULT_SETTINGS` as the JSON record the merge loop iterates over. -/
def DEFAULT_SETTINGS_J : List (String × JValue) :=
  [("right_apps", JValue.jarr [JValue.jstr "blender", JValue.jstr "houdini"]),
   ("work_minutes", JValue.jnum 25),
   ("break_minutes", JValue.jnum 5)]

/-- Dictionary lookup on a parsed JSON object (first matching key). -/
def jget : List (String × JValue) → String → Option JValue
  | [], _ => none
  | kv :: rest, k => if kv.1 = k then some kv.2 else jget rest k

/-- The merge loop of `load_settings`:
`for k, v in DEFAULT_SETTINGS.items(): if k not in data: data[k] = v`. -/
def mergeDefaults (data : List (String × JValue)) : List (String × JValue) :=
  DEFAULT_SETTINGS_J.foldl
    (fun d kv => if (jget d kv.1).isSome then d else d ++ [kv]) data

/-- `load_settings` from the source. The argument is the parse outcome of
the settings file: `none` when the file is missing or `json.load` raised
(both return a copy of the defaults), `some v` when it parsed to `v`.
The merge loop sits outside the `try` block; on a value that is not a
dict, item assignment (or `in` on a number) raises `TypeError`, which is
modelled as `Except.error`. -/
def load_settings (file : Option JValue) : Except String (List (String × JValue)) :=
  match file with
  | none => Except.ok DEFAULT_SETTINGS_J
  | some (JValue.jobj fields) => Except.ok (mergeDefaults fields)
  | some _ => Except.error "TypeError"

/-- Does `needle` occur at the head of `hay`? (helper for Python `in`). -/
def listHasPre : List Char → List Char → Bool
  | [], _ => true
  | _ :: _, [] => false
  | a :: as, b :: bs => a = b && listHasPre as bs

/-- Does `needle` occur anywhere in `hay`? (helper for Python `in`). -/
def listHasSub : List Char → List Char → Bool
  | needle, [] => needle.isEmpty
  | needle, c :: rest => listHasPre needle (c :: rest) || listHasSub needle rest

/-- Python substring test `needle in hay`. -/
def strContains (hay needle : String) : Bool :=
  listHasSub needle.toList hay.toList

/-- Python `str.lower()`, as a character-list map so that the kernel can
evaluate it (ASCII case folding, which covers the fragments the program
compares). -/
def toLowerStr (s : String) : String :=
  ⟨s.toList.map Char.toLower⟩

/-- Drop leading whitespace from a character list (helper for `strip`). -/
def dropLeadingWs : List Char → List Char
  | [] => []
  | c :: cs => if c.isWhitespace then dropLeadingWs cs else c :: cs

/-- Python `str.strip()`: drop leading and trailing whitespace. -/
def trimStr (s : String) : String :=
  ⟨((dropLeadingWs s.toList.reverse).reverse |> dropLeadingWs)⟩

/-- Python `str.split(",")` on a character list: `""` yields `[""]` and a
trailing comma yields a trailing empty piece. -/
def splitOnComma : List Char → List (List Char)
  | [] => [[]]
  | c :: cs =>
      let r := splitOnComma cs
      if c = ',' then [] :: r
      else match r with
        | [] => [[c]]
        | h :: t => (c :: h) :: t

/-- Python `apps_raw.split(",")`. -/
def splitCommas (s : String) : List String :=
  (splitOnComma s.toList).map (fun l => ⟨l⟩)

/-- The `is_right` test of `on_tick`: some approved fragment is a
case-insensitive substring of the active window title or process name. -/
def is_right (right_apps : List String) (active_title proc_name : String) : Bool :=
  right_apps.any fun frag =>
    strContains (toLowerStr active_title) (toLowerStr frag) ||
    strContains (toLowerStr proc_name) (toLowerStr frag)

/-- `SettingsDialog.get_settings`: strip fragments and drop empty ones
(falling back to the default pair when none remain), parse the duration
fields (falling back to that field default on `ValueError`), floor both
durations at 1. -/
def get_settings (apps_raw : String) (workTxt breakTxt : Option Int) : Settings :=
  let right_apps := ((splitCommas apps_raw).map trimStr).filter (fun a => a ≠ "")
  let work_minutes := match workTxt with
    | some n => n
    | none => DEFAULT_SETTINGS.work_minutes
  let break_minutes := match breakTxt with
    | some n => n
    | none => DEFAULT_SETTINGS.break_minutes
  { right_apps := if right_apps = [] then DEFAULT_SETTINGS.right_apps else right_apps,
    work_minutes := max 1 work_minutes,
    break_minutes := max 1 break_minutes }

/-- `PLANT` from the source. -/
def PLANT : String := "🌱"

/-- `FLOWERS` from the source (17 variants). -/
def FLOWERS : List String :=
  ["🌸", "💮", "🪷", "🏵️", "🌹", "🥀", "🌺", "🌻", "🌼", "🌷", "🪻", "🐵", "🐰", "🦥", "🥚", "🐸", "🐼"]

/-- The garden mutation of `update_garden_after_session`: replace a random
seedling with a random flower, or, when no seedling remains, overwrite one
of the 5 slots with a random flower. `rs` selects the slot and `rf` the
flower, each reduced modulo the relevant list length. -/
def update_garden (garden : List String) (rs rf : Nat) : List String :=
  let seedling_positions :=
    (List.range garden.length).filter (fun i => garden.getD i "" = PLANT)
  if seedling_positions ≠ [] then
    let pos := seedling_positions.getD (rs % seedling_positions.length) 0
    garden.set pos (FLOWERS.getD (rf % FLOWERS.length) "🌸")
  else
    let pos := rs % 5
    garden.set pos (FLOWERS.getD (rf % FLOWERS.length) "🌸")

/-- Tone kinds passed to `play_sound`. -/
inductive ToneKind where
  | work_complete
  | break_finished
  | break_overtime
  | wrong_app
  deriving DecidableEq, Repr

/-- Observable side-effect requests emitted by a tick. -/
inductive Effect where
  | playTone (kind : ToneKind)
  | showMessage (title body : String)
  deriving DecidableEq, Repr

/-- The mutable state of `PomodoroWindow` that the session engine owns.
Audio playback is kept as the two intent flags of the source; label text
other than the status line is presentation and not modelled. -/
structure AppState where
  settings : Settings
  is_running : Bool
  is_on_break : Bool
  is_wrong_app : Bool
  is_stopped_counting : Bool
  break_elapsed_seconds : Int
  stopped_elapsed_seconds : Int
  idle_elapsed_seconds : Int
  wrong_app_start_time : Option Int
  wrong_app_notified_time : Option Int
  break_overtime_notified : Bool
  last_overtime_speech_time : Option Int
  idle_annoying_song_playing : Bool
  annoying_song_playing : Bool
  work_total_seconds : Int
  break_total_seconds : Int
  remaining_seconds : Int
  session_count : Int
  garden : List String
  timer_active : Bool
  label_status : String
  deriving DecidableEq, Repr

/-- `PomodoroWindow.__init__`: the state after construction with the given
settings (timer started, idle song loop started). -/
def mkInitial (settings : Settings) : AppState :=
  { settings := settings,
    is_running := false, is_on_break := false, is_wrong_app := false,
    is_stopped_counting := false,
    break_elapsed_seconds := 0, stopped_elapsed_seconds := 0,
    idle_elapsed_seconds := 0,
    wrong_app_start_time := none, wrong_app_notified_time := none,
    break_overtime_notified := false, last_overtime_speech_time := none,
    idle_annoying_song_playing := true,
    annoying_song_playing := true,
    work_total_seconds := settings.work_minutes * 60,
    break_total_seconds := settings.break_minutes * 60,
    remaining_seconds := settings.work_minutes * 60,
    session_count := 0,
    garden := List.replicate 5 PLANT,
    timer_active := true,
    label_status := "Idle" }

/-- `PomodoroWindow.start_pomodoro`. -/
def start_pomodoro (s : AppState) : AppState :=
  { s with
    is_running := true, is_on_break := false, is_stopped_counting := false,
    stopped_elapsed_seconds := 0, idle_elapsed_seconds := 0,
    remaining_seconds := s.work_total_seconds,
    label_status := "Working…",
    annoying_song_playing :=
      if s.idle_annoying_song_playing then false else s.annoying_song_playing,
    idle_annoying_song_playing := false,
    timer_active := true }

/-- `PomodoroWindow.stop_work`: pause the work session; the timer keeps
running to count elapsed stopped time. -/
def stop_work (s : AppState) : AppState :=
  { s with
    is_running := false, is_wrong_app := false,
    wrong_app_start_time := none, wrong_app_notified_time := none,
    is_stopped_counting := true,
    stopped_elapsed_seconds := 0, idle_elapsed_seconds := 0,
    label_status := "Stopped" }

/-- `PomodoroWindow.stop_all`: return to Idle and restart the idle song. -/
def stop_all (s : AppState) : AppState :=
  { s with
    is_running := false, is_on_break := false, is_wrong_app := false,
    is_stopped_counting := false,
    wrong_app_start_time := none, wrong_app_notified_time := none,
    break_overtime_notified := false, last_overtime_speech_time := none,
    stopped_elapsed_seconds := 0, idle_elapsed_seconds := 0,
    timer_active := false,
    label_status := "Idle",
    remaining_seconds := s.work_total_seconds,
    annoying_song_playing := true,
    idle_annoying_song_playing := true }

/-- `PomodoroWindow.start_break`. -/
def start_break (s : AppState) : AppState :=
  { s with
    is_on_break := true, is_stopped_counting := false,
    stopped_elapsed_seconds := 0, idle_elapsed_seconds := 0,
    break_elapsed_seconds := 0,
    break_overtime_notified := false, last_overtime_speech_time := none,
    remaining_seconds := s.break_total_seconds,
    label_status := "Break",
    annoying_song_playing :=
      if s.idle_annoying_song_playing then false else s.annoying_song_playing,
    idle_annoying_song_playing := false,
    timer_active := true }

/-- `PomodoroWindow.toggle_start`: when stopped, jump to break; when idle,
start a pomodoro; otherwise stop the current work or break session. -/
def toggle_start (s : AppState) : AppState :=
  if s.is_stopped_counting then
    { s with
      is_stopped_counting := false,
      stopped_elapsed_seconds := 0, idle_elapsed_seconds := 0,
      break_elapsed_seconds := 0, is_on_break := true,
      break_overtime_notified := false,
      label_status := "Break",
      timer_active := true }
  else if !s.is_running && !s.is_on_break then
    start_pomodoro s
  else if s.is_running then
    stop_work s
  else if s.is_on_break then
    stop_all s
  else s

/-- `PomodoroWindow.open_settings`, accepted path: run the dialog
validation, store the record, recompute the derived totals, and reset the
phase counter that is currently displayed. -/
def apply_settings (s : AppState) (apps_raw : String) (workTxt breakTxt : Option Int) :
    AppState :=
  let st := get_settings apps_raw workTxt breakTxt
  let s := { s with
    settings := st,
    work_total_seconds := st.work_minutes * 60,
    break_total_seconds := st.break_minutes * 60 }
  if s.is_running then
    { s with remaining_seconds := s.work_total_seconds }
  else if s.is_on_break then
    { s with break_elapsed_seconds := 0 }
  else
    { s with remaining_seconds := s.work_total_seconds }

/-- `PomodoroWindow.update_garden_after_session`. -/
def update_garden_after_session (s : AppState) (rs rf : Nat) : AppState :=
  { s with
    session_count := s.session_count + 1,
    garden := update_garden s.garden rs rf }

/-- The on-task arm of the Working branch of `on_tick`: count down one
second, clear the wrong-app tracking fields, stop the annoying song. -/
def right_app_update (s : AppState) : AppState :=
  { s with
    remaining_seconds := s.remaining_seconds - 1,
    is_wrong_app := false,
    wrong_app_start_time := none, wrong_app_notified_time := none,
    annoying_song_playing := false,
    label_status := "Working…" }

/-- The off-task arm of the Working branch of `on_tick`: undo one second of
progress (clamped to the work total), record the episode start (starting
the annoying song on the first off-task tick), and fire the throttled
wrong-app warning: first after 5 seconds on the wrong app, then every 10
seconds. `t` is the current wall-clock time. -/
def wrong_app_update (s : AppState) (t : Int) (active_title proc_name : String) :
    AppState × List Effect :=
  let s := { s with
    remaining_seconds := min (s.remaining_seconds + 1) s.work_total_seconds,
    label_status := "Wrong app – undoing progress",
    is_wrong_app := true }
  let s :=
    if s.wrong_app_start_time = none then
      { s with wrong_app_start_time := some t, annoying_song_playing := true }
    else s
  let time_on_wrong_app := t - (s.wrong_app_start_time.getD t)
  if 5 ≤ time_on_wrong_app ∧ s.wrong_app_notified_time = none then
    ({ s with wrong_app_notified_time := some t },
     [Effect.playTone ToneKind.wrong_app,
      Effect.showMessage "Wrong App Detected"
        ("You\x27re on: " ++ (if active_title ≠ "" then active_title else proc_name))])
  else if s.wrong_app_notified_time ≠ none ∧
      10 ≤ t - (s.wrong_app_notified_time.getD t) then
    ({ s with wrong_app_notified_time := some t },
     [Effect.playTone ToneKind.wrong_app,
      Effect.showMessage "Wrong App Detected"
        ("You\x27re on: " ++ (if active_title ≠ "" then active_title else proc_name))])
  else (s, [])

/-- The completion check at the end of the Working branch of `on_tick`:
when the countdown reached zero, end the session, record it in the garden
and enter the break. -/
def complete_check (p : AppState × List Effect) (rs rf : Nat) : AppState × List Effect :=
  if p.1.remaining_seconds ≤ 0 then
    let s := { p.1 with
      is_running := false, timer_active := false,
      label_status := "Pomodoro complete" }
    (start_break (update_garden_after_session s rs rf),
     p.2 ++ [Effect.playTone ToneKind.work_complete,
       Effect.showMessage "Pomodoro complete" "Take a break!"])
  else p

/-- The Break branch of `on_tick`: count the break up; on the first tick
strictly past the total, fire the overtime tone and message once and start
the annoying song. -/
def break_tick (s : AppState) (t : Int) : AppState × List Effect :=
  let s := { s with break_elapsed_seconds := s.break_elapsed_seconds + 1 }
  let remaining := s.break_total_seconds - s.break_elapsed_seconds
  if 0 ≤ remaining then
    ({ s with label_status := "Break" }, [])
  else if !s.break_overtime_notified then
    ({ s with
      break_overtime_notified := true,
      last_overtime_speech_time := some t,
      annoying_song_playing := true,
      label_status := "Break Overtime" },
     [Effect.playTone ToneKind.break_overtime,
      Effect.showMessage "Break Time\x27s Up!" "You\x27re on overtime 😄"])
  else
    ({ s with label_status := "Break Overtime" }, [])

/-- `PomodoroWindow.on_tick`: the 1-second timer callback. `t` is the
current wall-clock second, `active_title`/`proc_name` the Focus Probe
result, and `rs rf` the random draws consumed if the session completes. -/
def on_tick (s : AppState) (t : Int) (active_title proc_name : String) (rs rf : Nat) :
    AppState × List Effect :=
  if !s.is_running && !s.is_on_break && !s.is_stopped_counting then
    ({ s with
      idle_elapsed_seconds := s.idle_elapsed_seconds + 1,
      label_status := "Idle" }, [])
  else if s.is_stopped_counting then
    ({ s with
      stopped_elapsed_seconds := s.stopped_elapsed_seconds + 1,
      label_status := "Stopped" }, [])
  else if s.is_on_break then
    break_tick s t
  else
    complete_check
      (if is_right s.settings.right_apps active_title proc_name then
        (right_app_update s, [])
      else wrong_app_update s t active_title proc_name) rs rf

/-- Iterate `on_tick` for `n` seconds starting at wall-clock time `t`,
feeding the Focus Probe answers `probe 0, probe 1, …` (title, process).
The random draws are fixed at 0 (they are consumed only on completion). -/
def probeTicks (s : AppState) (t : Int) (probe : Nat → String × String) : Nat → AppState
  | 0 => s
  | n + 1 =>
      let sp := probeTicks s t probe n
      (on_tick sp (t + (n : Int)) (probe n).1 (probe n).2 0 0).1

/-- The effects emitted by tick number `j` (0-based) of a `probeTicks` run. -/
def probeEffects (s : AppState) (t : Int) (probe : Nat → String × String) (j : Nat) :
    List Effect :=
  (on_tick (probeTicks s t probe j) (t + (j : Int)) (probe j).1 (probe j).2 0 0).2

/-- The spec phase Working: a work session is running and neither the
break nor the stopped sub-machine is active. -/
def isWorkingPhase (s : AppState) : Bool :=
  s.is_running && !s.is_on_break && !s.is_stopped_counting

/-- Does an effect list contain the wrong-app desktop message? -/
def firesWrongAppMessage (effs : List Effect) : Bool :=
  effs.any fun e => match e with
    | Effect.showMessage title _ => title = "Wrong App Detected"
    | _ => false

/-- Does an effect list contain the wrong-app warning tone? -/
def firesWrongAppTone (effs : List Effect) : Bool :=
  effs.any fun e => e = Effect.playTone ToneKind.wrong_app

/-- Does an effect list contain the break-overtime desktop message? -/
def firesOvertimeMessage (effs : List Effect) : Bool :=
  effs.any fun e => match e with
    | Effect.showMessage title _ => title = "Break Time\x27s Up!"
    | _ => false

/-- Does an effect list contain the break-overtime tone? -/
def firesOvertimeTone (effs : List Effect) : Bool :=
  effs.any fun e => e = Effect.playTone ToneKind.break_overtime

/-- A configuration: engine state plus the wall clock. -/
structure Config where
  st : AppState
  clock : Int

/-- One atomic event of the system: a timer tick (only while the timer is
active; the clock advances one second), a press of the start/stop button,
or an accepted settings dialog. -/
inductive Step : Config → Config → Prop where
  | tick (c : Config) (title proc : String) (rs rf : Nat)
      (h : c.st.timer_active = true) :
      Step c ⟨(on_tick c.st c.clock title proc rs rf).1, c.clock + 1⟩
  | toggle (c : Config) :
      Step c ⟨toggle_start c.st, c.clock⟩
  | settings_apply (c : Config) (raw : String) (wT bT : Option Int) :
      Step c ⟨apply_settings c.st raw wT bT, c.clock⟩

/-- Reachability of configurations along any event sequence. -/
def Reachable (init c : Config) : Prop :=
  Relation.ReflTransGen Step init c

/-! ### Helper lemmas -/

theorem listHasSub_nil (l : List Char) : listHasSub [] l = true := by
  cases l <;> simp [listHasSub, listHasPre]

theorem jget_append (l1 l2 : List (String × JValue)) (k : String) :
    jget (l1 ++ l2) k =
      match jget l1 k with
      | some v => some v
      | none => jget l2 k := by
  induction l1 with
  | nil => rfl
  | cons kv rest ih =>
      by_cases h : kv.1 = k <;> simp [jget, h, ih]

theorem jget_append_single_ne (f : List (String × JValue)) (k k' : String)
    (v : JValue) (h : k ≠ k') : jget (f ++ [(k, v)]) k' = jget f k' := by
  rw [jget_append]
  cases hf : jget f k' <;> simp [jget, h]

/-- A key already bound in the accumulator survives any run of the merge
loop body. -/
theorem jget_foldl_preserve (k : String) (ds : List (String × JValue)) :
    ∀ f : List (String × JValue), (jget f k).isSome = true →
      jget (ds.foldl (fun d kv => if (jget d kv.1).isSome then d else d ++ [kv]) f) k
        = jget f k := by
  induction ds with
  | nil => intro f h; rfl
  | cons kv rest ih =>
      intro f h
      simp only [List.foldl_cons]
      by_cases hc : (jget f kv.1).isSome
      · rw [if_pos hc]
        exact ih f h
      · rw [if_neg hc]
        obtain ⟨v, hv⟩ := Option.isSome_iff_exists.mp h
        have hap : jget (f ++ [kv]) k = jget f k := by
          rw [jget_append, hv]
        rw [ih (f ++ [kv]) (by rw [hap]; exact h), hap]

/-- Keys already present in the data survive the defaults merge loop. -/
theorem jget_mergeDefaults_of_isSome (f : List (String × JValue)) (k : String)
    (h : (jget f k).isSome = true) : jget (mergeDefaults f) k = jget f k :=
  jget_foldl_preserve k DEFAULT_SETTINGS_J f h

theorem mem_seedling_positions (g : List String) (i : Nat) :
    i ∈ (List.range g.length).filter (fun i => g.getD i "" = PLANT) ↔
      i < g.length ∧ g.getD i "" = PLANT := by
  simp [List.mem_filter, List.mem_range]

theorem getD_mem_of_lt {α : Type} (l : List α) (n : Nat) (d : α)
    (h : n < l.length) : l.getD n d ∈ l := by
  rw [List.getD_eq_getElem l d h]
  exact List.getElem_mem h

theorem countP_set_incr {α : Type} (p : α → Bool) (d : α) (l : List α) :
    ∀ (i : Nat) (a : α), i < l.length → p (l.getD i d) = false →
      p a = true → (l.set i a).countP p = l.countP p + 1 := by
  induction l with
  | nil => intro i a h; simp at h
  | cons x xs ih =>
      intro i a hi hp hpa
      cases i with
      | zero =>
          have hp0 : p x = false := by simpa [List.getD] using hp
          simp [List.set, List.countP_cons, hp0, hpa]
      | succ n =>
          simp only [List.length_cons, Nat.succ_lt_succ_iff] at hi
          have hp' : p (xs.getD n d) = false := by
            simpa [List.getD] using hp
          simp [List.set, List.countP_cons, ih n a hi hp' hpa]
          omega

theorem mem_set_cases {α : Type} (l : List α) :
    ∀ (i : Nat) (a x : α), x ∈ l.set i a → x ∈ l ∨ x = a := by
  induction l with
  | nil => intro i a x hx; simp [List.set] at hx
  | cons y ys ih =>
      intro i a x hx
      cases i with
      | zero =>
          rcases List.mem_cons.mp hx with h | h
          · right; exact h
          · left; exact List.mem_cons_of_mem _ h
      | succ n =>
          rcases List.mem_cons.mp hx with h | h
          · left; exact h ▸ List.mem_cons_self _ _
          · rcases ih n a x h with h' | h'
            · left; exact List.mem_cons_of_mem _ h'
            · right; exact h'

theorem flowers_ne_plant : ∀ f ∈ FLOWERS, f ≠ PLANT := by decide

theorem flower_pick_mem (k : Nat) : FLOWERS.getD k "🌸" ∈ FLOWERS := by
  by_cases h : k < FLOWERS.length
  · exact getD_mem_of_lt _ _ _ h
  · rw [List.getD_eq_default _ _ (Nat.le_of_not_lt h)]
    decide

/-- The number of garden slots no longer holding a seedling. -/
def nonSeedlings (garden : List String) : Nat :=
  garden.countP (fun x => x != PLANT)

theorem update_garden_length (g : List String) (rs rf : Nat) :
    (update_garden g rs rf).length = g.length := by
  simp only [update_garden]
  split <;> simp [List.length_set]

theorem nonSeedlings_update_garden_mem (g : List String) (rs rf : Nat)
    (hmem : PLANT ∈ g) :
    nonSeedlings (update_garden g rs rf) = nonSeedlings g + 1 := by
  obtain ⟨i, hlt, hgi⟩ := List.mem_iff_getElem.mp hmem
  unfold update_garden
  set sp := (List.range g.length).filter (fun i => g.getD i "" = PLANT) with hspdef
  have hisp : i ∈ sp := (mem_seedling_positions g i).mpr
    ⟨hlt, by rw [List.getD_eq_getElem g "" hlt, hgi]⟩
  have hne : sp ≠ [] := by
    intro h
    rw [h] at hisp
    exact (List.not_mem_nil i) hisp
  rw [if_pos hne]
  have hlen : 0 < sp.length := List.length_pos.mpr hne
  have hposmem : sp.getD (rs % sp.length) 0 ∈ sp :=
    getD_mem_of_lt _ _ _ (Nat.mod_lt _ hlen)
  obtain ⟨hposlt, hposPlant⟩ := (mem_seedling_positions g _).mp hposmem
  have hflwne : FLOWERS.getD (rf % FLOWERS.length) "🌸" ≠ PLANT :=
    flowers_ne_plant _ (flower_pick_mem (rf % FLOWERS.length))
  exact countP_set_incr _ "" g _ _ hposlt (by rw [hposPlant]; simp)
    (by simp only [bne_iff_ne, ne_eq]; exact hflwne)

theorem nonSeedlings_update_garden_full (g : List String) (rs rf : Nat)
    (h5 : g.length = 5) (hnm : PLANT ∉ g) :
    nonSeedlings (update_garden g rs rf) = 5 ∧ PLANT ∉ update_garden g rs rf := by
  have hsp : (List.range g.length).filter (fun i => g.getD i "" = PLANT) = [] := by
    rw [List.filter_eq_nil_iff]
    intro i hi
    simp only [List.mem_range] at hi
    simp only [decide_eq_true_eq]
    intro hplant
    exact hnm (hplant ▸ getD_mem_of_lt g i "" hi)
  have hbody : update_garden g rs rf =
      g.set (rs % 5) (FLOWERS.getD (rf % FLOWERS.length) "🌸") := by
    unfold update_garden
    rw [hsp]
    simp
  have hnm' : PLANT ∉ update_garden g rs rf := by
    rw [hbody]
    intro hx
    rcases mem_set_cases g _ _ _ hx with h | h
    · exact hnm h
    · exact flowers_ne_plant _ (flower_pick_mem (rf % FLOWERS.length)) h.symm
  refine ⟨?_, hnm'⟩
  have hall : ∀ x ∈ update_garden g rs rf, (x != PLANT) = true := by
    intro x hx
    simp only [bne_iff_ne, ne_eq]
    intro hxp
    exact hnm' (hxp ▸ hx)
  calc nonSeedlings (update_garden g rs rf)
      = (update_garden g rs rf).length := List.countP_eq_length.mpr hall
    _ = 5 := by rw [update_garden_length, h5]

/-- C7: the garden keeps exactly 5 slots under `recordCompletedSession`,
for every injected random choice: while a seedling remains, the call turns
one seedling into a flower, so the non-seedling count strictly increases;
once all 5 slots are flowers, a call replaces a flower with a flower and
the non-seedling count stays at 5. -/
theorem claim_C7_garden_progression (s : AppState) (rs rf : Nat)
    (h5 : s.garden.length = 5) :
    (update_garden_after_session s rs rf).garden.length = 5 ∧
    (PLANT ∈ s.garden →
      nonSeedlings (update_garden_after_session s rs rf).garden =
        nonSeedlings s.garden + 1) ∧
    (PLANT ∉ s.garden →
      nonSeedlings (update_garden_after_session s rs rf).garden = 5 ∧
      PLANT ∉ (update_garden_after_session s rs rf).garden) := by
  refine ⟨?_, ?_, ?_⟩
  · rw [show (update_garden_after_session s rs rf).garden
        = update_garden s.garden rs rf from rfl, update_garden_length, h5]
  · intro hmem
    exact nonSeedlings_update_garden_mem s.garden rs rf hmem
  · intro hnm
    exact nonSeedlings_update_garden_full s.garden rs rf h5 hnm

/-- Witness for C7: one session recorded on the fresh 5-seedling garden
grows the non-seedling count from 0 to 1. -/
theorem claim_C7_witness :
    (update_garden_after_session (mkInitial DEFAULT_SETTINGS) 2 3).garden.length = 5 ∧
    nonSeedlings (update_garden_after_session (mkInitial DEFAULT_SETTINGS) 2 3).garden =
      nonSeedlings (mkInitial DEFAULT_SETTINGS).garden + 1 := by
  refine ⟨(claim_C7_garden_progression (mkInitial DEFAULT_SETTINGS) 2 3 (by decide)).1,
    (claim_C7_garden_progression (mkInitial DEFAULT_SETTINGS) 2 3 (by decide)).2.1 (by decide)⟩

theorem get_settings_right_apps (raw : String) (wT bT : Option Int) :
    (get_settings raw wT bT).right_apps =
      if ((splitCommas raw).map trimStr).filter (fun a => a ≠ "") = []
      then DEFAULT_SETTINGS.right_apps
      else ((splitCommas raw).map trimStr).filter (fun a => a ≠ "") := rfl

theorem get_settings_work_minutes (raw : String) (wT bT : Option Int) :
    (get_settings raw wT bT).work_minutes =
      max 1 (match wT with | some n => n | none => 25) := rfl

theorem get_settings_break_minutes (raw : String) (wT bT : Option Int) :
    (get_settings raw wT bT).break_minutes =
      max 1 (match bT with | some n => n | none => 5) := rfl

/-- C8: `get_settings` drops whitespace-only approved fragments and falls
back to the built-in default pair when none remain; a duration field that
does not parse as an integer is replaced by that field default (25 work,
5 break), while a parseable integer below 1 is raised to the minimum 1. -/
theorem claim_C8_settings_apply_validation :
    (∀ (raw : String) (bT : Option Int), (get_settings raw none bT).work_minutes = 25) ∧
    (∀ (raw : String) (wT : Option Int), (get_settings raw wT none).break_minutes = 5) ∧
    (∀ (raw : String) (bT : Option Int) (n : Int), n < 1 →
      (get_settings raw (some n) bT).work_minutes = 1) ∧
    (∀ (raw : String) (wT : Option Int) (n : Int), n < 1 →
      (get_settings raw wT (some n)).break_minutes = 1) ∧
    (∀ (raw : String) (wT bT : Option Int) (f : String),
      f ∈ (get_settings raw wT bT).right_apps → f ≠ "") ∧
    (∀ (raw : String) (wT bT : Option Int),
      ((splitCommas raw).map trimStr).filter (fun a => a ≠ "") = [] →
      (get_settings raw wT bT).right_apps = ["blender", "houdini"]) := by
  refine ⟨?_, ?_, ?_, ?_, ?_, ?_⟩
  · intro raw bT
    rw [get_settings_work_minutes]
    decide
  · intro raw wT
    rw [get_settings_break_minutes]
    decide
  · intro raw bT n h
    rw [get_settings_work_minutes]
    simp only
    omega
  · intro raw wT n h
    rw [get_settings_break_minutes]
    simp only
    omega
  · intro raw wT bT f hf
    rw [get_settings_right_apps] at hf
    split at hf
    · rcases List.mem_cons.mp hf with h | h
      · rw [h]; decide
      · rw [List.mem_singleton.mp h]; decide
    · exact of_decide_eq_true (List.mem_filter.mp hf).2
  · intro raw wT bT h
    rw [get_settings_right_apps, if_pos h]
    rfl

/-- Witness for C8 at concrete inputs: an unparseable work field yields
25, a parseable 0 is raised to 1, and a whitespace-only fragment list
falls back to the default pair. -/
theorem claim_C8_witness :
    (get_settings "a" none none).work_minutes = 25 ∧
    (get_settings "a" (some 0) none).work_minutes = 1 ∧
    (get_settings " , " (some 3) (some (-1))).break_minutes = 1 ∧
    (get_settings " , " (some 3) (some (-1))).right_apps = ["blender", "houdini"] :=
  ⟨claim_C8_settings_apply_validation.1 "a" none,
   claim_C8_settings_apply_validation.2.2.1 "a" none 0 (by decide),
   claim_C8_settings_apply_validation.2.2.2.1 " , " (some 3) (-1) (by decide),
   claim_C8_settings_apply_validation.2.2.2.2.2 " , " (some 3) (some (-1)) (by decide)⟩

/-- C6: from any Stopped state, the start command transitions directly to
Break with the break counter reset, not back into the work session,
whatever value `remaining_seconds` held when the session was stopped. -/
theorem claim_C6_stopped_start_skips_to_break (s : AppState)
    (hstop : s.is_stopped_counting = true) (hrun : s.is_running = false) :
    (toggle_start s).is_on_break = true ∧
    (toggle_start s).is_running = false ∧
    (toggle_start s).is_stopped_counting = false ∧
    (toggle_start s).break_elapsed_seconds = 0 ∧
    (toggle_start s).remaining_seconds = s.remaining_seconds := by
  simp [toggle_start, hstop, hrun]

/-- Witness for C6 at the spec scenario: stopped with 1200 seconds of work
remaining. -/
theorem claim_C6_witness :
    (toggle_start { mkInitial DEFAULT_SETTINGS with
      is_stopped_counting := true, remaining_seconds := 1200 }).is_on_break = true ∧
    (toggle_start { mkInitial DEFAULT_SETTINGS with
      is_stopped_counting := true, remaining_seconds := 1200 }).is_running = false ∧
    (toggle_start { mkInitial DEFAULT_SETTINGS with
      is_stopped_counting := true, remaining_seconds := 1200 }).is_stopped_counting = false ∧
    (toggle_start { mkInitial DEFAULT_SETTINGS with
      is_stopped_counting := true, remaining_seconds := 1200 }).break_elapsed_seconds = 0 ∧
    (toggle_start { mkInitial DEFAULT_SETTINGS with
      is_stopped_counting := true, remaining_seconds := 1200 }).remaining_seconds =
      ({ mkInitial DEFAULT_SETTINGS with
        is_stopped_counting := true, remaining_seconds := 1200 } : AppState).remaining_seconds :=
  claim_C6_stopped_start_skips_to_break _ rfl rfl

/-- C10: persisted settings are not re-validated on load (present fields
survive the merge untouched), and an empty approved fragment makes
`is_right` true for every Focus Probe result, including the empty title
and process name a probe failure yields. -/
theorem claim_C10_empty_fragment_always_on_task :
    (∀ (fields : List (String × JValue)) (v : JValue),
      jget fields "right_apps" = some v →
      jget (mergeDefaults fields) "right_apps" = some v) ∧
    (∀ (apps : List String) (title proc : String),
      "" ∈ apps → is_right apps title proc = true) := by
  constructor
  · intro fields v hv
    rw [jget_mergeDefaults_of_isSome fields _ (by rw [hv]; rfl), hv]
  · intro apps title proc hmem
    apply List.any_eq_true.mpr
    refine ⟨"", hmem, ?_⟩
    have h1 : strContains (toLowerStr title) (toLowerStr "") = true :=
      listHasSub_nil _
    simp [h1]

/-- Witness for C10: a loaded record whose fragment list is `[""]` is kept
as-is by the merge, and the empty fragment matches the empty probe. -/
theorem claim_C10_witness :
    jget (mergeDefaults [("right_apps", JValue.jarr [JValue.jstr ""])]) "right_apps"
      = some (JValue.jarr [JValue.jstr ""]) ∧
    is_right [""] "" "" = true :=
  ⟨claim_C10_empty_fragment_always_on_task.1 _ _ rfl,
   claim_C10_empty_fragment_always_on_task.2 [""] "" "" (by simp)⟩

/-- The concrete run refuting C5: from the initial state, start a work
session, take one off-task tick (which starts the looping audio), press
stop, then press start to enter the break. -/
def c5_trace : AppState :=
  toggle_start (toggle_start
    ((on_tick (toggle_start (mkInitial DEFAULT_SETTINGS)) 0 "x" "x" 0 0).1))

/-- C5 counterexample: the Stopped-to-Break transition resets
`break_elapsed_seconds` but does not stop the looping distraction audio:
at the end of `c5_trace` the state is in Break with the audio still
playing. -/
theorem claim_C5_counterexample :
    c5_trace.is_on_break = true ∧
    c5_trace.break_elapsed_seconds = 0 ∧
    c5_trace.annoying_song_playing = true := by
  decide

theorem isWorkingPhase_iff (s : AppState) :
    isWorkingPhase s = true ↔
      s.is_running = true ∧ s.is_on_break = false ∧ s.is_stopped_counting = false := by
  simp [isWorkingPhase, and_assoc]

/-- C5 amended: every transition into Break sets `breakElapsedSeconds` to
0; the distraction audio, however, is only stopped on the entry taken at
work-session completion (where the completing on-task tick has already
stopped it), while the Stopped-to-Break transition leaves the audio flag
untouched, so audio looping since a wrong-app episode keeps playing. -/
theorem claim_C5_break_entry_amended :
    (∀ s : AppState, s.is_stopped_counting = true →
      (toggle_start s).is_on_break = true ∧
      (toggle_start s).break_elapsed_seconds = 0 ∧
      (toggle_start s).annoying_song_playing = s.annoying_song_playing) ∧
    (∀ (s : AppState) (t : Int) (ttl prc : String) (rs rf : Nat),
      isWorkingPhase s = true →
      is_right s.settings.right_apps ttl prc = true →
      s.remaining_seconds ≤ 1 →
      (on_tick s t ttl prc rs rf).1.is_on_break = true ∧
      (on_tick s t ttl prc rs rf).1.break_elapsed_seconds = 0 ∧
      (on_tick s t ttl prc rs rf).1.annoying_song_playing = false) := by
  constructor
  · intro s hstop
    simp [toggle_start, hstop]
  · intro s t ttl prc rs rf hph hright hrem
    obtain ⟨hr, hb, hs⟩ := (isWorkingPhase_iff s).mp hph
    have hdone : (right_app_update s).remaining_seconds ≤ 0 := by
      simp only [right_app_update]
      omega
    simp only [on_tick, hr, hb, hs, hright, Bool.not_true, Bool.false_and,
      Bool.and_false, if_true, if_false, ite_true, ite_false, if_neg,
      Bool.false_eq_true, if_pos]
    simp only [complete_check, if_pos hdone]
    cases hflag : (right_app_update s).idle_annoying_song_playing <;>
      simp [start_break, update_garden_after_session, right_app_update, hflag]

/-- Witness for C5 amended: a stopped state with the audio flag on enters
Break keeping it on, and a completing on-task tick enters Break with the
audio off. -/
theorem claim_C5_amended_witness :
    ((toggle_start { mkInitial DEFAULT_SETTINGS with
        is_stopped_counting := true, annoying_song_playing := true }).is_on_break = true ∧
     (toggle_start { mkInitial DEFAULT_SETTINGS with
        is_stopped_counting := true, annoying_song_playing := true }).break_elapsed_seconds = 0 ∧
     (toggle_start { mkInitial DEFAULT_SETTINGS with
        is_stopped_counting := true, annoying_song_playing := true }).annoying_song_playing =
       ({ mkInitial DEFAULT_SETTINGS with
        is_stopped_counting := true, annoying_song_playing := true } : AppState).annoying_song_playing) ∧
    ((on_tick { mkInitial DEFAULT_SETTINGS with
        is_running := true, remaining_seconds := 1 } 0 "blender" "" 0 0).1.is_on_break = true ∧
     (on_tick { mkInitial DEFAULT_SETTINGS with
        is_running := true, remaining_seconds := 1 } 0 "blender" "" 0 0).1.break_elapsed_seconds = 0 ∧
     (on_tick { mkInitial DEFAULT_SETTINGS with
        is_running := true, remaining_seconds := 1 } 0 "blender" "" 0 0).1.annoying_song_playing = false) :=
  ⟨claim_C5_break_entry_amended.1 _ rfl,
   claim_C5_break_entry_amended.2 _ 0 "blender" "" 0 0 (by decide) (by decide) (by decide)⟩

theorem on_tick_working_eq (s : AppState) (t : Int) (ttl prc : String) (rs rf : Nat)
    (hr : s.is_running = true) (hb : s.is_on_break = false)
    (hs : s.is_stopped_counting = false) :
    on_tick s t ttl prc rs rf =
      complete_check
        (if is_right s.settings.right_apps ttl prc then (right_app_update s, [])
         else wrong_app_update s t ttl prc) rs rf := by
  simp [on_tick, hr, hb, hs]

theorem complete_check_pos (p : AppState × List Effect) (rs rf : Nat)
    (h : 0 < p.1.remaining_seconds) : complete_check p rs rf = p := by
  unfold complete_check
  rw [if_neg (by omega)]

theorem wrong_app_update_fst_fields (s : AppState) (t : Int) (ttl prc : String) :
    (wrong_app_update s t ttl prc).1.remaining_seconds
        = min (s.remaining_seconds + 1) s.work_total_seconds ∧
    (wrong_app_update s t ttl prc).1.is_running = s.is_running ∧
    (wrong_app_update s t ttl prc).1.is_on_break = s.is_on_break ∧
    (wrong_app_update s t ttl prc).1.is_stopped_counting = s.is_stopped_counting ∧
    (wrong_app_update s t ttl prc).1.settings = s.settings ∧
    (wrong_app_update s t ttl prc).1.work_total_seconds = s.work_total_seconds := by
  by_cases hst : s.wrong_app_start_time = none <;>
    simp only [wrong_app_update, hst, if_true, if_false, ite_true, ite_false] <;>
    split <;> (try split) <;> simp

/-- C2: for a tick taken while Working: on-task decrements the countdown
by exactly 1 (staying in Working while the countdown is still positive,
completing to Break when it reaches 0), and off-task increments it by 1
clamped so it never exceeds the work total. -/
theorem claim_C2_work_tick_counter (s : AppState) (t : Int) (ttl prc : String)
    (rs rf : Nat)
    (hph : isWorkingPhase s = true)
    (h0 : 0 ≤ s.remaining_seconds) (_hub : s.remaining_seconds ≤ s.work_total_seconds)
    (hT : 1 ≤ s.work_total_seconds) :
    (is_right s.settings.right_apps ttl prc = true → 1 < s.remaining_seconds →
      (on_tick s t ttl prc rs rf).1.remaining_seconds = s.remaining_seconds - 1 ∧
      isWorkingPhase (on_tick s t ttl prc rs rf).1 = true) ∧
    (is_right s.settings.right_apps ttl prc = true → s.remaining_seconds ≤ 1 →
      (on_tick s t ttl prc rs rf).1.is_on_break = true ∧
      (on_tick s t ttl prc rs rf).1.is_running = false) ∧
    (is_right s.settings.right_apps ttl prc = false →
      (on_tick s t ttl prc rs rf).1.remaining_seconds
          = min (s.remaining_seconds + 1) s.work_total_seconds ∧
      (on_tick s t ttl prc rs rf).1.remaining_seconds ≤ s.work_total_seconds ∧
      isWorkingPhase (on_tick s t ttl prc rs rf).1 = true) := by
  obtain ⟨hr, hb, hs⟩ := (isWorkingPhase_iff s).mp hph
  rw [on_tick_working_eq s t ttl prc rs rf hr hb hs]
  refine ⟨?_, ?_, ?_⟩
  · intro hright hgt
    rw [hright, if_pos rfl]
    rw [complete_check_pos _ rs rf (by simp only [right_app_update]; omega)]
    constructor
    · simp [right_app_update]
    · simp [right_app_update, isWorkingPhase, hr, hb, hs]
  · intro hright hle
    rw [hright, if_pos rfl]
    have hdone : (right_app_update s).remaining_seconds ≤ 0 := by
      simp only [right_app_update]
      omega
    simp only [complete_check, if_pos hdone]
    simp [start_break, update_garden_after_session]
  · intro hright
    rw [hright, if_neg (by simp)]
    obtain ⟨hrem, hrun, hbrk, hstp, _, hwt⟩ := wrong_app_update_fst_fields s t ttl prc
    rw [complete_check_pos _ rs rf (by rw [hrem]; omega)]
    refine ⟨hrem, by rw [hrem]; omega, ?_⟩
    rw [isWorkingPhase_iff]
    exact ⟨hrun.trans hr, hbrk.trans hb, hstp.trans hs⟩

/-- Witness for C2: from a fresh 1500-second session, an on-task tick
leaves 1499 seconds, and an off-task tick at 1500 stays clamped at 1500. -/
theorem claim_C2_witness :
    ((on_tick (start_pomodoro (mkInitial DEFAULT_SETTINGS)) 0 "blender" "" 0 0).1.remaining_seconds
        = (start_pomodoro (mkInitial DEFAULT_SETTINGS)).remaining_seconds - 1) ∧
    ((on_tick (start_pomodoro (mkInitial DEFAULT_SETTINGS)) 0 "x" "x" 0 0).1.remaining_seconds
        = min ((start_pomodoro (mkInitial DEFAULT_SETTINGS)).remaining_seconds + 1)
            (start_pomodoro (mkInitial DEFAULT_SETTINGS)).work_total_seconds) :=
  ⟨((claim_C2_work_tick_counter (start_pomodoro (mkInitial DEFAULT_SETTINGS)) 0 "blender" "" 0 0
      (by decide) (by decide) (by decide) (by decide)).1 (by decide) (by decide)).1,
   ((claim_C2_work_tick_counter (start_pomodoro (mkInitial DEFAULT_SETTINGS)) 0 "x" "x" 0 0
      (by decide) (by decide) (by decide) (by decide)).2.2 (by decide)).1⟩

theorem on_tick_break_eq (s : AppState) (t : Int) (ttl prc : String) (rs rf : Nat)
    (hb : s.is_on_break = true) (hst : s.is_stopped_counting = false) :
    on_tick s t ttl prc rs rf = break_tick s t := by
  simp [on_tick, hb, hst]

theorem break_tick_fields (x : AppState) (τ : Int) :
    (break_tick x τ).1.is_on_break = x.is_on_break ∧
    (break_tick x τ).1.is_stopped_counting = x.is_stopped_counting ∧
    (break_tick x τ).1.break_total_seconds = x.break_total_seconds ∧
    (break_tick x τ).1.break_elapsed_seconds = x.break_elapsed_seconds + 1 ∧
    (break_tick x τ).1.break_overtime_notified =
      (if x.break_total_seconds - (x.break_elapsed_seconds + 1) < 0 then true
       else x.break_overtime_notified) ∧
    firesOvertimeMessage (break_tick x τ).2 =
      (decide (x.break_total_seconds - (x.break_elapsed_seconds + 1) < 0)
        && !x.break_overtime_notified) ∧
    firesOvertimeTone (break_tick x τ).2 = firesOvertimeMessage (break_tick x τ).2 := by
  unfold break_tick
  by_cases h1 : 0 ≤ x.break_total_seconds - (x.break_elapsed_seconds + 1)
  · simp only [h1, if_true, ite_true]
    simp [firesOvertimeMessage, firesOvertimeTone]
    omega
  · by_cases h2 : x.break_overtime_notified
    · simp only [h1, h2]
      simp [firesOvertimeMessage, firesOvertimeTone]
    · simp only [h1, h2]
      simp [firesOvertimeMessage, firesOvertimeTone]
      omega

/-- C4: starting a break at elapsed 0 with the overtime guard clear, the
overtime tone and message fire on tick `j` of the break exactly when
`j = breakTotalSeconds`, i.e. on the first tick whose elapsed count
strictly exceeds the total, and on no other tick of that break; the guard
is re-armed by both Break entry paths. -/
theorem claim_C4_break_overtime_once (s : AppState) (t0 : Int)
    (probe : Nat → String × String) (j : Nat)
    (hb : s.is_on_break = true) (hst : s.is_stopped_counting = false)
    (hn : s.break_overtime_notified = false) (he : s.break_elapsed_seconds = 0)
    (hT : 0 ≤ s.break_total_seconds) :
    (firesOvertimeMessage (probeEffects s t0 probe j) = true ↔
      (j : Int) = s.break_total_seconds) ∧
    firesOvertimeTone (probeEffects s t0 probe j)
      = firesOvertimeMessage (probeEffects s t0 probe j) ∧
    (∀ x : AppState, (start_break x).break_overtime_notified = false) ∧
    (∀ x : AppState, x.is_stopped_counting = true →
      (toggle_start x).break_overtime_notified = false) := by
  have inv : ∀ k : Nat,
      (probeTicks s t0 probe k).is_on_break = true ∧
      (probeTicks s t0 probe k).is_stopped_counting = false ∧
      (probeTicks s t0 probe k).break_total_seconds = s.break_total_seconds ∧
      (probeTicks s t0 probe k).break_elapsed_seconds = (k : Int) ∧
      (probeTicks s t0 probe k).break_overtime_notified
        = decide (s.break_total_seconds < (k : Int)) := by
    intro k
    induction k with
    | zero =>
        refine ⟨hb, hst, rfl, by simpa using he, ?_⟩
        show s.break_overtime_notified = decide (s.break_total_seconds < ((0 : Nat) : Int))
        rw [hn, eq_comm, decide_eq_false_iff_not]
        omega
    | succ k ih =>
        obtain ⟨ib, ist, iT, ie, inot⟩ := ih
        have hstep : probeTicks s t0 probe (k + 1)
            = (break_tick (probeTicks s t0 probe k) (t0 + (k : Int))).1 := by
          show (on_tick (probeTicks s t0 probe k) (t0 + (k : Int))
            (probe k).1 (probe k).2 0 0).1 = _
          rw [on_tick_break_eq _ _ _ _ _ _ ib ist]
        obtain ⟨fb, fst, fT, fe, fnot, _, _⟩ :=
          break_tick_fields (probeTicks s t0 probe k) (t0 + (k : Int))
        rw [hstep]
        refine ⟨fb.trans ib, fst.trans ist, fT.trans iT, ?_, ?_⟩
        · rw [fe, ie]
          push_cast
          ring
        · rw [fnot, iT, ie, inot]
          by_cases hlt : s.break_total_seconds < (k : Int) + 1
          · rw [if_pos (by omega), eq_comm, decide_eq_true_eq]
            push_cast
            omega
          · rw [if_neg (by omega)]
            have hx1 : ¬s.break_total_seconds < ((k + 1 : Nat) : Int) := by
              push_cast
              omega
            have hx2 : ¬s.break_total_seconds < (k : Int) := by omega
            rw [decide_eq_false hx1, decide_eq_false hx2]
  obtain ⟨ib, ist, iT, ie, inot⟩ := inv j
  have heff : probeEffects s t0 probe j
      = (break_tick (probeTicks s t0 probe j) (t0 + (j : Int))).2 := by
    show (on_tick (probeTicks s t0 probe j) (t0 + (j : Int))
      (probe j).1 (probe j).2 0 0).2 = _
    rw [on_tick_break_eq _ _ _ _ _ _ ib ist]
  obtain ⟨_, _, _, _, _, fmsg, ftone⟩ :=
    break_tick_fields (probeTicks s t0 probe j) (t0 + (j : Int))
  refine ⟨?_, ?_, ?_, ?_⟩
  · rw [heff, fmsg, iT, ie, inot]
    constructor
    · intro h
      simp only [Bool.and_eq_true, Bool.not_eq_true', decide_eq_true_eq,
        decide_eq_false_iff_not] at h
      omega
    · intro h
      simp only [Bool.and_eq_true, Bool.not_eq_true', decide_eq_true_eq,
        decide_eq_false_iff_not]
      omega
  · rw [heff, ftone]
  · intro x
    simp [start_break]
  · intro x hx
    simp [toggle_start, hx]

/-- Witness for C4 on a 1-second break total: the overtime message fires
exactly on tick 1 (elapsed 2) and not on tick 0. -/
theorem claim_C4_witness :
    (firesOvertimeMessage (probeEffects { mkInitial DEFAULT_SETTINGS with
        is_on_break := true, break_total_seconds := 1 } 0 (fun _ => ("", "")) 1) = true ↔
      ((1 : Nat) : Int) = ({ mkInitial DEFAULT_SETTINGS with
        is_on_break := true, break_total_seconds := 1 } : AppState).break_total_seconds) ∧
    (firesOvertimeMessage (probeEffects { mkInitial DEFAULT_SETTINGS with
        is_on_break := true, break_total_seconds := 1 } 0 (fun _ => ("", "")) 0) = true ↔
      ((0 : Nat) : Int) = ({ mkInitial DEFAULT_SETTINGS with
        is_on_break := true, break_total_seconds := 1 } : AppState).break_total_seconds) :=
  ⟨(claim_C4_break_overtime_once _ 0 (fun _ => ("", "")) 1 rfl rfl rfl rfl (by decide)).1,
   (claim_C4_break_overtime_once _ 0 (fun _ => ("", "")) 0 rfl rfl rfl rfl (by decide)).1⟩

/-- A key not yet bound in the accumulator gets bound to its first value
in the iterated defaults list by the merge loop. -/
theorem jget_foldl_fill (k : String) (v : JValue) (ds : List (String × JValue)) :
    ∀ f : List (String × JValue), jget f k = none → jget ds k = some v →
      jget (ds.foldl (fun d kv => if (jget d kv.1).isSome then d else d ++ [kv]) f) k
        = some v := by
  induction ds with
  | nil =>
      intro f hf hd
      exact absurd hd (by simp [jget])
  | cons kv rest ih =>
      intro f hf hd
      simp only [List.foldl_cons]
      by_cases hk : kv.1 = k
      · have hv : kv.2 = v := by
          rw [jget, if_pos hk] at hd
          exact Option.some.inj hd
        rw [if_neg (by rw [hk, hf]; simp)]
        have hpres : jget (f ++ [kv]) k = some v := by
          rw [jget_append, hf]
          simp [jget, hk, hv]
        rw [jget_foldl_preserve k rest _ (by rw [hpres]; rfl), hpres]
      · have hd' : jget rest k = some v := by
          rw [jget, if_neg hk] at hd
          exact hd
        by_cases hc : (jget f kv.1).isSome
        · rw [if_pos hc]
          exact ih f hf hd'
        · rw [if_neg hc]
          have hf' : jget (f ++ [kv]) k = none := by
            rw [jget_append, hf]
            simp [jget, hk]
          exact ih (f ++ [kv]) hf' hd'

/-- C9 counterexample: a settings file that parses to a JSON value that is
not a key-value record (here, an array) makes `load_settings` raise a
`TypeError` in the merge loop, which sits outside the `try` block — so
load can raise on a file that parses. -/
theorem claim_C9_counterexample :
    load_settings (some (JValue.jarr [])) = Except.error "TypeError" := rfl

/-- C9 amended: a missing or unparseable file yields exactly the built-in
defaults; a file that parses to a key-value record is merged so that every
present field is preserved unchanged and each missing default key is
filled in (right_apps from the default pair, work_minutes 25,
break_minutes 5) without raising; but a file that parses to a non-record
value makes load raise. -/
theorem claim_C9_load_merges_defaults_amended :
    (load_settings none = Except.ok DEFAULT_SETTINGS_J) ∧
    (∀ fields, load_settings (some (JValue.jobj fields))
      = Except.ok (mergeDefaults fields)) ∧
    (∀ fields k, (jget fields k).isSome = true →
      jget (mergeDefaults fields) k = jget fields k) ∧
    (∀ fields, jget fields "right_apps" = none →
      jget (mergeDefaults fields) "right_apps"
        = some (JValue.jarr [JValue.jstr "blender", JValue.jstr "houdini"])) ∧
    (∀ fields, jget fields "work_minutes" = none →
      jget (mergeDefaults fields) "work_minutes" = some (JValue.jnum 25)) ∧
    (∀ fields, jget fields "break_minutes" = none →
      jget (mergeDefaults fields) "break_minutes" = some (JValue.jnum 5)) := by
  refine ⟨rfl, fun fields => rfl, jget_mergeDefaults_of_isSome, ?_, ?_, ?_⟩
  · intro fields h
    exact jget_foldl_fill "right_apps" _ DEFAULT_SETTINGS_J fields h rfl
  · intro fields h
    exact jget_foldl_fill "work_minutes" _ DEFAULT_SETTINGS_J fields h rfl
  · intro fields h
    exact jget_foldl_fill "break_minutes" _ DEFAULT_SETTINGS_J fields h rfl

/-- Witness for C9 amended: a record carrying only `work_minutes = 30`
keeps that value and gets `break_minutes` filled with the default 5. -/
theorem claim_C9_witness :
    jget (mergeDefaults [("work_minutes", JValue.jnum 30)]) "work_minutes"
      = jget [("work_minutes", JValue.jnum 30)] "work_minutes" ∧
    jget (mergeDefaults [("work_minutes", JValue.jnum 30)]) "break_minutes"
      = some (JValue.jnum 5) :=
  ⟨claim_C9_load_merges_defaults_amended.2.2.1 [("work_minutes", JValue.jnum 30)]
      "work_minutes" rfl,
   claim_C9_load_merges_defaults_amended.2.2.2.2.2 [("work_minutes", JValue.jnum 30)] rfl⟩

/-- The throttle condition of the off-task arm at wall time `τ`: fire when
no warning was sent yet and 5 seconds passed since the episode start, or
when one was sent and 10 seconds passed since it. -/
def fireCond (x : AppState) (τ : Int) : Bool :=
  match x.wrong_app_notified_time with
  | none => decide (5 ≤ τ - x.wrong_app_start_time.getD τ)
  | some m => decide (10 ≤ τ - m)

theorem on_tick_offtask_step (x : AppState) (τ : Int) (a b : String)
    (hr : x.is_running = true) (hb : x.is_on_break = false)
    (hs : x.is_stopped_counting = false)
    (hright : is_right x.settings.right_apps a b = false)
    (h0 : 0 ≤ x.remaining_seconds) (hT : 1 ≤ x.work_total_seconds) :
    ((on_tick x τ a b 0 0).1.is_running = true ∧
     (on_tick x τ a b 0 0).1.is_on_break = false ∧
     (on_tick x τ a b 0 0).1.is_stopped_counting = false ∧
     (on_tick x τ a b 0 0).1.settings = x.settings ∧
     (on_tick x τ a b 0 0).1.work_total_seconds = x.work_total_seconds ∧
     0 ≤ (on_tick x τ a b 0 0).1.remaining_seconds) ∧
    (on_tick x τ a b 0 0).1.wrong_app_start_time
        = some (x.wrong_app_start_time.getD τ) ∧
    (on_tick x τ a b 0 0).1.wrong_app_notified_time
        = (if fireCond x τ then some τ else x.wrong_app_notified_time) ∧
    firesWrongAppMessage (on_tick x τ a b 0 0).2 = fireCond x τ ∧
    firesWrongAppTone (on_tick x τ a b 0 0).2 = fireCond x τ := by
  rw [on_tick_working_eq x τ a b 0 0 hr hb hs, hright]
  rw [if_neg (by simp)]
  have hrem := (wrong_app_update_fst_fields x τ a b).1
  rw [complete_check_pos _ 0 0 (by rw [hrem]; omega)]
  unfold wrong_app_update fireCond
  by_cases hst : x.wrong_app_start_time = none
  · cases hnt : x.wrong_app_notified_time with
    | none =>
        simp only [hst, hnt, if_true, ite_true, Option.getD, if_pos rfl]
        simp [hr, hb, hs, firesWrongAppMessage, firesWrongAppTone]
        omega
    | some m =>
        by_cases h10 : 10 ≤ τ - m
        · simp only [hst, hnt]
          simp [hr, hb, hs, h10, firesWrongAppMessage, firesWrongAppTone]
          omega
        · simp only [hst, hnt]
          simp [hr, hb, hs, h10, firesWrongAppMessage, firesWrongAppTone]
          omega
  · obtain ⟨w, hw⟩ := Option.ne_none_iff_exists'.mp hst
    cases hnt : x.wrong_app_notified_time with
    | none =>
        by_cases h5 : 5 ≤ τ - w
        · simp only [hw, hnt]
          simp [hr, hb, hs, h5, firesWrongAppMessage, firesWrongAppTone]
          omega
        · simp only [hw, hnt]
          simp [hr, hb, hs, h5, firesWrongAppMessage, firesWrongAppTone]
          omega
    | some m =>
        by_cases h10 : 10 ≤ τ - m
        · simp only [hw, hnt]
          simp [hr, hb, hs, h10, firesWrongAppMessage, firesWrongAppTone]
          omega
        · simp only [hw, hnt]
          simp [hr, hb, hs, h10, firesWrongAppMessage, firesWrongAppTone]
          omega

/-- C3: along a run of consecutive off-task ticks entered with clear
wrong-app tracking (tick `j` of the run happens at wall time `t0 + j`),
the wrong-app message and warning tone fire exactly at the tick indices
`5, 15, 25, …` — that is, at wall times `t0+5, t0+15, t0+25, …` — and in
particular not at all when fewer than 6 off-task ticks happen; and any
on-task tick taken while Working clears both `wrong_app_start_time` and
`wrong_app_notified_time`, restarting the schedule for the next episode. -/
theorem claim_C3_wrong_app_throttle (s : AppState) (t0 : Int)
    (probe : Nat → String × String) (n : Nat)
    (hph : isWorkingPhase s = true)
    (hstart : s.wrong_app_start_time = none)
    (hnot : s.wrong_app_notified_time = none)
    (h0 : 0 ≤ s.remaining_seconds) (hT : 1 ≤ s.work_total_seconds)
    (hoff : ∀ k, k < n → is_right s.settings.right_apps (probe k).1 (probe k).2 = false) :
    (∀ j, j < n →
      (firesWrongAppMessage (probeEffects s t0 probe j) = true ↔
        ∃ a : Nat, j = 5 + 10 * a) ∧
      firesWrongAppTone (probeEffects s t0 probe j)
        = firesWrongAppMessage (probeEffects s t0 probe j)) ∧
    (∀ (x : AppState) (t : Int) (ttl prc : String) (rs rf : Nat),
      isWorkingPhase x = true →
      is_right x.settings.right_apps ttl prc = true →
      (on_tick x t ttl prc rs rf).1.wrong_app_start_time = none ∧
      (on_tick x t ttl prc rs rf).1.wrong_app_notified_time = none) := by
  have inv : ∀ j, j ≤ n →
      (probeTicks s t0 probe j).is_running = true ∧
      (probeTicks s t0 probe j).is_on_break = false ∧
      (probeTicks s t0 probe j).is_stopped_counting = false ∧
      (probeTicks s t0 probe j).settings = s.settings ∧
      (probeTicks s t0 probe j).work_total_seconds = s.work_total_seconds ∧
      0 ≤ (probeTicks s t0 probe j).remaining_seconds ∧
      ((j = 0 ∧ (probeTicks s t0 probe j).wrong_app_start_time = none ∧
        (probeTicks s t0 probe j).wrong_app_notified_time = none) ∨
       (0 < j ∧ (probeTicks s t0 probe j).wrong_app_start_time = some t0 ∧
        ((j ≤ 5 ∧ (probeTicks s t0 probe j).wrong_app_notified_time = none) ∨
         (∃ a : Nat, (probeTicks s t0 probe j).wrong_app_notified_time
            = some (t0 + 5 + 10 * (a : Int)) ∧
          5 + 10 * a < j ∧ j ≤ 15 + 10 * a)))) := by
    intro j
    induction j with
    | zero =>
        intro _
        obtain ⟨hr, hb, hs⟩ := (isWorkingPhase_iff s).mp hph
        exact ⟨hr, hb, hs, rfl, rfl, h0, Or.inl ⟨rfl, hstart, hnot⟩⟩
    | succ k ih =>
        intro hk1
        obtain ⟨ir, ib, ist, iset, iwt, irem, icase⟩ := ih (by omega)
        have hstep := on_tick_offtask_step (probeTicks s t0 probe k)
          (t0 + (k : Int)) (probe k).1 (probe k).2 ir ib ist
          (by rw [iset]; exact hoff k (by omega)) irem (by rw [iwt]; exact hT)
        obtain ⟨⟨pr, pb, pst, pset, pwt, prem⟩, pstart, pnot, _, _⟩ := hstep
        have hunf : probeTicks s t0 probe (k + 1)
            = (on_tick (probeTicks s t0 probe k) (t0 + (k : Int))
                (probe k).1 (probe k).2 0 0).1 := rfl
        rw [hunf]
        refine ⟨pr, pb, pst, pset.trans iset, pwt.trans iwt, prem, Or.inr ⟨by omega, ?_, ?_⟩⟩
        · rcases icase with ⟨hk0, hst0, _⟩ | ⟨_, hst0, _⟩
          · rw [pstart, hst0]
            subst hk0
            simp
          · rw [pstart, hst0]
            rfl
        · rcases icase with ⟨hk0, hst0, hnt0⟩ | ⟨hkpos, hst0, hcase⟩
          · -- k = 0: the first off-task tick never fires
            subst hk0
            rw [pnot]
            have hfc : fireCond (probeTicks s t0 probe 0) (t0 + ((0 : Nat) : Int)) = false := by
              unfold fireCond
              rw [hnt0, hst0]
              simp
            rw [hfc, if_neg (by simp), hnt0]
            left
            exact ⟨by omega, rfl⟩
          · rcases hcase with ⟨hk5, hnt0⟩ | ⟨a, hnt0, ha1, ha2⟩
            · -- not yet notified: fires exactly when k reaches 5
              have hfc : fireCond (probeTicks s t0 probe k) (t0 + (k : Int))
                  = decide (5 ≤ (k : Int)) := by
                unfold fireCond
                rw [hnt0, hst0]
                simp only [Option.getD_some]
                exact decide_eq_decide.mpr (by omega)
              rw [pnot, hfc]
              by_cases h5 : 5 ≤ (k : Int)
              · rw [if_pos (by simp [h5])]
                right
                refine ⟨0, ?_, by omega, by omega⟩
                have : k = 5 := by omega
                subst this
                push_cast
                ring_nf
              · rw [if_neg (by simp [h5]), hnt0]
                left
                exact ⟨by omega, rfl⟩
            · -- already notified at t0+5+10a: fires when k reaches 15+10a
              have hfc : fireCond (probeTicks s t0 probe k) (t0 + (k : Int))
                  = decide (10 ≤ (k : Int) - (5 + 10 * (a : Int))) := by
                unfold fireCond
                rw [hnt0]
                exact decide_eq_decide.mpr (by omega)
              rw [pnot, hfc]
              by_cases h15 : 10 ≤ (k : Int) - (5 + 10 * (a : Int))
              · rw [if_pos (by simp [h15])]
                right
                refine ⟨a + 1, ?_, by omega, by omega⟩
                have : k = 15 + 10 * a := by omega
                subst this
                push_cast
                ring_nf
              · rw [if_neg (by simp [h15])]
                right
                exact ⟨a, hnt0, by omega, by omega⟩
  constructor
  · intro j hj
    obtain ⟨ir, ib, ist, iset, iwt, irem, icase⟩ := inv j (by omega)
    have hstep := on_tick_offtask_step (probeTicks s t0 probe j)
      (t0 + (j : Int)) (probe j).1 (probe j).2 ir ib ist
      (by rw [iset]; exact hoff j hj) irem (by rw [iwt]; exact hT)
    obtain ⟨_, _, _, pmsg, ptone⟩ := hstep
    have heff : probeEffects s t0 probe j
        = (on_tick (probeTicks s t0 probe j) (t0 + (j : Int))
            (probe j).1 (probe j).2 0 0).2 := rfl
    rw [heff]
    constructor
    · rw [pmsg]
      rcases icase with ⟨hj0, hst0, hnt0⟩ | ⟨hjpos, hst0, hcase⟩
      · subst hj0
        unfold fireCond
        rw [hnt0, hst0]
        simp only [Option.getD]
        constructor
        · intro h
          exact absurd h (by simp)
        · rintro ⟨a, ha⟩
          omega
      · rcases hcase with ⟨hj5, hnt0⟩ | ⟨a, hnt0, ha1, ha2⟩
        · unfold fireCond
          rw [hnt0, hst0]
          simp only [Option.getD, decide_eq_true_eq]
          constructor
          · intro h
            exact ⟨0, by omega⟩
          · rintro ⟨b, hb'⟩
            omega
        · unfold fireCond
          rw [hnt0]
          simp only [decide_eq_true_eq]
          constructor
          · intro h
            exact ⟨a + 1, by omega⟩
          · rintro ⟨b, hb'⟩
            have : b = a + 1 := by omega
            omega
    · rw [pmsg, ptone]
  · intro x t ttl prc rs rf hphx hrx
    obtain ⟨hr, hb, hs⟩ := (isWorkingPhase_iff x).mp hphx
    rw [on_tick_working_eq x t ttl prc rs rf hr hb hs, hrx, if_pos rfl]
    unfold complete_check
    split
    · constructor <;>
        simp [start_break, update_garden_after_session, right_app_update]
    · constructor <;> simp [right_app_update]

/-- Witness for C3: starting a fresh session and staying off-task, the
wrong-app message fires at tick 5 and not at tick 3. -/
theorem claim_C3_witness :
    (firesWrongAppMessage (probeEffects (start_pomodoro (mkInitial DEFAULT_SETTINGS)) 0
        (fun _ => ("x", "x")) 5) = true ↔ ∃ a : Nat, 5 = 5 + 10 * a) ∧
    (firesWrongAppMessage (probeEffects (start_pomodoro (mkInitial DEFAULT_SETTINGS)) 0
        (fun _ => ("x", "x")) 3) = true ↔ ∃ a : Nat, 3 = 5 + 10 * a) :=
  ⟨((claim_C3_wrong_app_throttle (start_pomodoro (mkInitial DEFAULT_SETTINGS)) 0
      (fun _ => ("x", "x")) 6 (by decide) rfl rfl (by decide) (by decide)
      (fun k _ => (by decide :
        is_right ["blender", "houdini"] "x" "x" = false))).1 5 (by omega)).1,
   ((claim_C3_wrong_app_throttle (start_pomodoro (mkInitial DEFAULT_SETTINGS)) 0
      (fun _ => ("x", "x")) 6 (by decide) rfl rfl (by decide) (by decide)
      (fun k _ => (by decide :
        is_right ["blender", "houdini"] "x" "x" = false))).1 3 (by omega)).1⟩

/-- The inductive invariant behind C1: the cached work total always equals
`workMinutes * 60` and is at least 1, and in phase Working the countdown
sits strictly between 0 and the total. -/
def WorkInv (x : AppState) : Prop :=
  x.work_total_seconds = x.settings.work_minutes * 60 ∧
  1 ≤ x.work_total_seconds ∧
  (isWorkingPhase x = true →
    1 ≤ x.remaining_seconds ∧ x.remaining_seconds ≤ x.work_total_seconds)

theorem break_tick_keeps_totals (x : AppState) (τ : Int) :
    (break_tick x τ).1.work_total_seconds = x.work_total_seconds ∧
    (break_tick x τ).1.settings = x.settings := by
  unfold break_tick
  by_cases h1 : 0 ≤ x.break_total_seconds - (x.break_elapsed_seconds + 1)
  · simp [h1]
  · by_cases h2 : x.break_overtime_notified <;> simp [h1, h2]

theorem workInv_init (st : Settings) (hwm : 1 ≤ st.work_minutes) :
    WorkInv (mkInitial st) := by
  refine ⟨rfl, by show 1 ≤ st.work_minutes * 60; omega, ?_⟩
  intro hw
  rw [isWorkingPhase_iff] at hw
  exact absurd hw.1 (by simp [mkInitial])

theorem workInv_step (c c' : Config) (h : Step c c') (hi : WorkInv c.st) :
    WorkInv c'.st := by
  obtain ⟨hE, hT, hbounds⟩ := hi
  cases h with
  | tick title proc rs rf htimer =>
      by_cases hstp : c.st.is_stopped_counting = true
      · have heq : on_tick c.st c.clock title proc rs rf
            = ({ c.st with
                stopped_elapsed_seconds := c.st.stopped_elapsed_seconds + 1,
                label_status := "Stopped" }, []) := by
          simp [on_tick, hstp]
        show WorkInv (on_tick c.st c.clock title proc rs rf).1
        rw [heq]
        exact ⟨hE, hT, fun hw => absurd hw (by simp [isWorkingPhase, hstp])⟩
      · by_cases hbrk : c.st.is_on_break = true
        · have heq := on_tick_break_eq c.st c.clock title proc rs rf hbrk
            (by simpa using hstp)
          obtain ⟨hkT, hkS⟩ := break_tick_keeps_totals c.st c.clock
          have hkB := (break_tick_fields c.st c.clock).1
          show WorkInv (on_tick c.st c.clock title proc rs rf).1
          rw [heq]
          refine ⟨by rw [hkT, hkS]; exact hE, by rw [hkT]; exact hT, fun hw => ?_⟩
          rw [isWorkingPhase_iff] at hw
          rw [hkB, hbrk] at hw
          exact absurd hw.2.1 (by simp)
        · by_cases hrun : c.st.is_running = true
          · -- Working branch
            have hph : isWorkingPhase c.st = true := by
              rw [isWorkingPhase_iff]
              exact ⟨hrun, by simpa using hbrk, by simpa using hstp⟩
            obtain ⟨h1, h2⟩ := hbounds hph
            show WorkInv (on_tick c.st c.clock title proc rs rf).1
            rw [on_tick_working_eq c.st c.clock title proc rs rf hrun
              (by simpa using hbrk) (by simpa using hstp)]
            by_cases hright : is_right c.st.settings.right_apps title proc = true
            · rw [hright, if_pos rfl]
              by_cases hdone : (right_app_update c.st).remaining_seconds ≤ 0
              · simp only [complete_check, if_pos hdone]
                refine ⟨?_, ?_, fun hw => ?_⟩
                · simp [start_break, update_garden_after_session, right_app_update]
                  exact hE
                · simp [start_break, update_garden_after_session, right_app_update]
                  omega
                · rw [isWorkingPhase_iff] at hw
                  exact absurd hw.2.1
                    (by simp [start_break, update_garden_after_session, right_app_update])
              · rw [complete_check_pos _ rs rf (by simpa using hdone)]
                refine ⟨by simpa [right_app_update] using hE,
                  by simpa [right_app_update] using hT, fun _ => ?_⟩
                simp only [right_app_update] at hdone ⊢
                omega
            · rw [Bool.not_eq_true] at hright
              rw [hright, if_neg (by simp)]
              obtain ⟨hrem, hwr, hwb, hws, hwset, hwt⟩ :=
                wrong_app_update_fst_fields c.st c.clock title proc
              rw [complete_check_pos _ rs rf (by rw [hrem]; omega)]
              refine ⟨by rw [hwt, hwset]; exact hE, by rw [hwt]; exact hT, fun _ => ?_⟩
              rw [hrem, hwt]
              omega
          · -- Idle branch
            have heq : on_tick c.st c.clock title proc rs rf
                = ({ c.st with
                    idle_elapsed_seconds := c.st.idle_elapsed_seconds + 1,
                    label_status := "Idle" }, []) := by
              simp [on_tick, hrun, hbrk, hstp]
            show WorkInv (on_tick c.st c.clock title proc rs rf).1
            rw [heq]
            exact ⟨hE, hT, fun hw => absurd hw (by simp [isWorkingPhase, hrun])⟩
  | toggle =>
      show WorkInv (toggle_start c.st)
      by_cases hstp : c.st.is_stopped_counting = true
      · unfold toggle_start
        rw [if_pos hstp]
        exact ⟨hE, hT, fun hw => absurd hw (by simp [isWorkingPhase])⟩
      · unfold toggle_start
        rw [if_neg (by simp [hstp])]
        by_cases hidle : (!c.st.is_running && !c.st.is_on_break) = true
        · rw [if_pos hidle]
          exact ⟨hE, hT, fun _ => ⟨by simpa [start_pomodoro] using hT,
            by simp [start_pomodoro]⟩⟩
        · rw [if_neg (by simpa using hidle)]
          by_cases hrun : c.st.is_running = true
          · rw [if_pos hrun]
            exact ⟨hE, hT, fun hw => absurd hw (by simp [isWorkingPhase, stop_work])⟩
          · rw [if_neg (by simp [hrun])]
            by_cases hbrk : c.st.is_on_break = true
            · rw [if_pos hbrk]
              exact ⟨hE, hT, fun hw => absurd hw (by simp [isWorkingPhase, stop_all])⟩
            · rw [if_neg (by simp [hbrk])]
              exact ⟨hE, hT, hbounds⟩
  | settings_apply raw wT bT =>
      show WorkInv (apply_settings c.st raw wT bT)
      have hm : 1 ≤ (get_settings raw wT bT).work_minutes := by
        rw [get_settings_work_minutes]
        exact le_max_left _ _
      unfold apply_settings
      by_cases hrun : c.st.is_running = true
      · rw [if_pos (by simpa using hrun)]
        refine ⟨rfl, ?_, fun _ => ⟨?_, le_refl _⟩⟩
        · show 1 ≤ (get_settings raw wT bT).work_minutes * 60
          omega
        · show 1 ≤ (get_settings raw wT bT).work_minutes * 60
          omega
      · rw [if_neg (by simpa using hrun)]
        by_cases hbrk : c.st.is_on_break = true
        · rw [if_pos (by simpa using hbrk)]
          refine ⟨rfl, ?_, fun hw => ?_⟩
          · show 1 ≤ (get_settings raw wT bT).work_minutes * 60
            omega
          · rw [isWorkingPhase_iff] at hw
            exact absurd hw.1 (by simp [hrun])
        · rw [if_neg (by simpa using hbrk)]
          refine ⟨rfl, ?_, fun _ => ⟨?_, le_refl _⟩⟩
          · show 1 ≤ (get_settings raw wT bT).work_minutes * 60
            omega
          · show 1 ≤ (get_settings raw wT bT).work_minutes * 60
            omega

/-- C1: from the initial state built over validated settings
(workMinutes ≥ 1), every configuration reachable by any sequence of ticks,
start/stop presses and settings changes that is in phase Working satisfies
`0 ≤ remainingSeconds ≤ workTotalSeconds`, with
`workTotalSeconds = workMinutes * 60` for the current settings. -/
theorem claim_C1_working_counter_bounds (st : Settings) (hwm : 1 ≤ st.work_minutes)
    (c : Config) (hreach : Reachable ⟨mkInitial st, 0⟩ c)
    (hph : isWorkingPhase c.st = true) :
    0 ≤ c.st.remaining_seconds ∧
    c.st.remaining_seconds ≤ c.st.work_total_seconds ∧
    c.st.work_total_seconds = c.st.settings.work_minutes * 60 := by
  have hinv : WorkInv c.st := by
    clear hph
    unfold Reachable at hreach
    induction hreach with
    | refl => exact workInv_init st hwm
    | tail hsteps hstep ih => exact workInv_step _ _ hstep ih
  obtain ⟨hE, hT, hb⟩ := hinv
  obtain ⟨h1, h2⟩ := hb hph
  exact ⟨by omega, h2, hE⟩

/-- Witness for C1 at the configuration reached by pressing start once
from the initial state: the fresh session has 1500 seconds remaining,
within bounds. -/
theorem claim_C1_witness :
    0 ≤ (toggle_start (mkInitial DEFAULT_SETTINGS)).remaining_seconds ∧
    (toggle_start (mkInitial DEFAULT_SETTINGS)).remaining_seconds
      ≤ (toggle_start (mkInitial DEFAULT_SETTINGS)).work_total_seconds ∧
    (toggle_start (mkInitial DEFAULT_SETTINGS)).work_total_seconds
      = (toggle_start (mkInitial DEFAULT_SETTINGS)).settings.work_minutes * 60 :=
  claim_C1_working_counter_bounds DEFAULT_SETTINGS (by decide)
    ⟨toggle_start (mkInitial DEFAULT_SETTINGS), 0⟩
    (Relation.ReflTransGen.single (Step.toggle ⟨mkInitial DEFAULT_SETTINGS, 0⟩))
    (by decide)

end Pomodoro
